import Mathlib

/-!
Shallow embedding of the logix-xtask task runner (src/lib.rs) and proofs
about its task table, scheduler loop, argument parsing, cargo invocation
and coverage driver.

Subprocess spawns, directory removals and printed lines are modelled as an
explicit effect trace; the scheduler loop is modelled with explicit fuel
(the Rust loop is unbounded; fuel only makes recursion total, and
termination with enough fuel is itself proved below).
-/

namespace LogixXtask

/-- The two built-in coverage leaf operations a Call action can point to
(run_lcov_coverage and run_html_coverage in the source). -/
inductive CovFmt where
  | lcov
  | html
deriving DecidableEq, Repr

/-- Observable side effects of cargo_cmd, grcov and code_coverage:
recursive directory removal, spawning a subprocess (program, environment
overrides, arguments), and printing a line. -/
inductive CovEffect where
  | removeDirAll (path : String)
  | spawn (prog : String) (envs : List (String × String)) (args : List String)
  | printLn (line : String)
deriving DecidableEq, Repr

/-- struct Vars: the execution context built once at startup. -/
structure Vars where
  cwd : String
  target_dir : String
  verbose : Bool
deriving DecidableEq, Repr

/-- Vars::verbose_arg. -/
def Vars.verbose_arg (v : Vars) : List String :=
  if v.verbose then ["--verbose"] else []

/-- Rust PathBuf::join on string paths: an absolute right side replaces the
left side, otherwise the two are joined with a separator. -/
def pJoin (base p : String) : String :=
  if p.startsWith "/" then p else base ++ "/" ++ p

/-- enum Action. The Call variant records which of the two static coverage
callbacks the Rust function pointer denotes. -/
inductive Action where
  | Cargo (cmd : String) (args : List String)
  | Call (f : CovFmt)
  | Run (name : String)
deriving DecidableEq, Repr

/-- static ACTIONS: the task table, transcribed entry by entry. -/
def ACTIONS : List (String × List Action) :=
  [("before-pr",
    [.Cargo "update" [],
     .Run "lints",
     .Run "build-all",
     .Run "all-tests",
     .Run "all-checks"]),
   ("all-checks",
    [.Cargo "deny" ["check"],
     .Cargo "semver-checks" [],
     .Cargo "outdated" ["--exit-code", "1"]]),
   ("lints",
    [.Cargo "fmt" ["--check"],
     .Cargo "clippy" ["--workspace"]]),
   ("build-all",
    [.Cargo "build" ["--workspace"],
     .Cargo "build" ["--workspace", "--tests"],
     .Cargo "build" ["--workspace", "--release"]]),
   ("all-tests", [.Cargo "test" ["--workspace"]]),
   ("lcov-coverage", [.Call .lcov]),
   ("html-coverage", [.Call .html])]

/-- ACTIONS.iter().find on a task name, keeping only the action list. -/
def lookupTask (table : List (String × List Action)) (name : String) :
    Option (List Action) :=
  (table.find? (fun p => name == p.1)).map Prod.snd

/-- fn grcov: one spawn of the coverage aggregation tool with the argument
list built in the source. -/
def grcov (target_dir format build_type : String) : CovEffect :=
  .spawn "grcov" []
    (["."] ++
     ["--binary-path", pJoin target_dir (build_type ++ "/deps")] ++
     ["-s", "."] ++
     ["-t", format] ++
     ["--branch"] ++
     ["--ignore-not-existing"] ++
     ["-o", pJoin target_dir format] ++
     ["--keep-only", "src/*"] ++
     ["--keep-only", "derive/src/*"])

/-- What the filesystem holds at the coverage output path before the run. -/
inductive FsKind where
  | dir
  | file
  | absent
deriving DecidableEq, Repr

/-- Path::is_dir on the modelled filesystem entry. -/
def FsKind.is_dir : FsKind → Bool
  | .dir => true
  | _ => false

/-- The format specific output directory computed in code_coverage. -/
def covTargetDir (vars : Vars) (format : String) : String :=
  pJoin vars.target_dir ("coverage-" ++ format)

/-- The instrumented cargo test spawn of code_coverage: environment
overrides for the target directory, incremental build, instrumentation
flags and the profile file template, then cargo test over the workspace
(build_type is the literal "debug" in the source, so no extra argument). -/
def covTestSpawn (vars : Vars) (format : String) : CovEffect :=
  .spawn "cargo"
    [("CARGO_TARGET_DIR", covTargetDir vars format),
     ("CARGO_INCREMENTAL", "0"),
     ("RUSTFLAGS", "-Cinstrument-coverage"),
     ("LLVM_PROFILE_FILE", pJoin (covTargetDir vars format) "cargo-test-%p-%m.profraw")]
    (["test", "--workspace"] ++
     (match "debug" with
      | "release" => ["--release"]
      | _ => []))

/-- The effects of code_coverage after the optional pre-clean when the
format is "lcov": the instrumented test run, then one lcov aggregation. -/
def lcovTailEffects (vars : Vars) : List CovEffect :=
  [covTestSpawn vars "lcov",
   grcov (covTargetDir vars "lcov") "lcov" "debug"]

/-- The effects of code_coverage after the optional pre-clean when the
format is "html": the instrumented test run, html and lcov aggregation,
the genhtml spawn over the lcov data, and the three printed lines. -/
def htmlTailEffects (vars : Vars) : List CovEffect :=
  [covTestSpawn vars "html",
   grcov (covTargetDir vars "html") "html" "debug",
   grcov (covTargetDir vars "html") "lcov" "debug",
   .spawn "genhtml" []
     (["-o", pJoin (covTargetDir vars "html") "html2"] ++
      ["--show-details"] ++
      ["--highlight"] ++
      ["--ignore-errors", "source"] ++
      ["--legend", pJoin (covTargetDir vars "html") "lcov"]),
   .printLn "Now open:",
   .printLn ("file://" ++ pJoin vars.cwd (covTargetDir vars "html") ++ "/html/index.html"),
   .printLn ("file://" ++ pJoin vars.cwd (covTargetDir vars "html") ++ "/html2/index.html")]

/-- fn code_coverage: optional removal of a pre-existing output directory
(only when it is a directory), the instrumented test run, then the format
specific aggregation steps; none for an unknown format (the source
panics there, modelled as none). -/
def code_coverage (vars : Vars) (format : String) (fs : FsKind) :
    Option (List CovEffect) :=
  let clean : List CovEffect :=
    if fs.is_dir then [.removeDirAll (covTargetDir vars format)] else []
  match format with
  | "html" => some (clean ++ htmlTailEffects vars)
  | "lcov" => some (clean ++ lcovTailEffects vars)
  | _ => none

/-- fn run_lcov_coverage. -/
def run_lcov_coverage (vars : Vars) (fs : FsKind) : Option (List CovEffect) :=
  code_coverage vars "lcov" fs

/-- fn run_html_coverage. -/
def run_html_coverage (vars : Vars) (fs : FsKind) : Option (List CovEffect) :=
  code_coverage vars "html" fs

/-- The argument list cargo_cmd hands to the spawned cargo process:
the verbosity argument, then the subcommand, then the explicit
arguments. -/
def cargoInvocationArgs (command : String) (args : List String) (vars : Vars) :
    List String :=
  vars.verbose_arg ++ command :: args

/-- fn cargo_cmd: the printed progress line followed by the cargo spawn. -/
def cargo_cmd (command : String) (args : List String) (vars : Vars) :
    List CovEffect :=
  [.printLn ("Running cargo " ++ command ++
      args.foldl (fun s a => s ++ " " ++ a) ""),
   .spawn "cargo" [] (cargoInvocationArgs command args vars)]

/-- A dispatched terminal action, as observed by the scheduler loop. -/
inductive Event where
  | cargo (cmd : String) (args : List String)
  | call (f : CovFmt)
deriving DecidableEq, Repr

/-- How a scheduler run ends: the queue drained, an unknown task reference
was hit (the source panics there), or the fuel ran out (model artifact). -/
inductive Outcome where
  | ok
  | unknownTask (name : String)
  | fuelOut
deriving DecidableEq, Repr

/-- The while-let scheduler loop of run_xtask: pop the front action;
a Cargo or Call action is dispatched, a Run action is looked up and its
action sequence is appended via tasks.extend, which pushes to the BACK of
the VecDeque. -/
def sched (table : List (String × List Action)) :
    Nat → List Action → List Event × Outcome
  | _, [] => ([], .ok)
  | 0, _ :: _ => ([], .fuelOut)
  | fuel + 1, a :: rest =>
    match a with
    | .Cargo cmd args =>
      let r := sched table fuel rest
      (.cargo cmd args :: r.1, r.2)
    | .Call f =>
      let r := sched table fuel rest
      (.call f :: r.1, r.2)
    | .Run name =>
      match lookupTask table name with
      | some acts => sched table fuel (rest ++ acts)
      | none => ([], .unknownTask name)

/-- The event a terminal action dispatches; none for a task reference. -/
def dispatchEvent : Action → Option Event
  | .Cargo cmd args => some (.cargo cmd args)
  | .Call f => some (.call f)
  | .Run _ => none

/-- Whether an action is terminal (not a task reference). -/
def Action.isTerminal : Action → Bool
  | .Run _ => false
  | _ => true

/-- Result of the argument loop of run_xtask: either an invalid argument
(exit 1) or the verbosity flag plus the seeded queue. -/
inductive ParseResult where
  | invalid (arg : String)
  | parsed (verbose : Bool) (queue : List Action)
deriving DecidableEq, Repr

/-- The argument loop of run_xtask: a verbosity flag sets verbose, a known
task name appends its actions to the queue, anything else exits. -/
def parseLoop : List String → Bool → List Action → ParseResult
  | [], v, q => .parsed v q
  | a :: rest, v, q =>
    if a == "--verbose" || a == "-v" then
      parseLoop rest true q
    else
      match lookupTask ACTIONS a with
      | some acts => parseLoop rest v (q ++ acts)
      | none => .invalid a

/-- The message printed when the queue is empty after parsing: the prefix
followed by every task name in table order, comma separated, built as the
enumerate loop in the source builds it. -/
def missingActionMsg : String :=
  "Missing action, use one of " ++
    (ACTIONS.enum.foldl
      (fun s p => if p.1 != 0 then s ++ ", " ++ p.2.1 else s ++ p.2.1) "")

/-- The observable result of run_xtask: exit on an invalid argument, exit
with the missing-action message, or a scheduler run with its trace. -/
inductive XResult where
  | invalidArg (arg : String)
  | missingAction (msg : String)
  | ran (trace : List Event) (outcome : Outcome)
deriving DecidableEq, Repr

/-- Process exit code of each result (assert and panic abort non-zero). -/
def XResult.exitCode : XResult → Nat
  | .invalidArg _ => 1
  | .missingAction _ => 1
  | .ran _ .ok => 0
  | .ran _ _ => 101

/-- The dispatched events of a result; empty when no action ever ran. -/
def XResult.trace : XResult → List Event
  | .ran tr _ => tr
  | _ => []

/-- fn run_xtask on a given argument list (program name excluded). -/
def run_xtask (args : List String) (fuel : Nat) : XResult :=
  match parseLoop args false [] with
  | .invalid a => .invalidArg a
  | .parsed _ q =>
    if q.isEmpty then .missingAction missingActionMsg
    else
      let r := sched ACTIONS fuel q
      .ran r.1 r.2

/-- The initial queue seeded from requested task names in order, each
contributing its action sequence (nothing for an unknown name). -/
def seedQueue : List String → List Action
  | [] => []
  | n :: rest => ((lookupTask ACTIONS n).getD []) ++ seedQueue rest

/-- Whether an argument is accepted by the argument loop. -/
def isValidArg (a : String) : Bool :=
  a == "--verbose" || a == "-v" || (lookupTask ACTIONS a).isSome

/-- Whether every task reference in a queue resolves in the table. -/
def runsResolve (table : List (String × List Action)) (q : List Action) : Bool :=
  q.all (fun a =>
    match a with
    | .Run m => (lookupTask table m).isSome
    | _ => true)

/-- Weight of an action: one for a terminal action, one plus the size of
the referenced expansion for a task reference. -/
def actionWeight (table : List (String × List Action)) (a : Action) : Nat :=
  match a with
  | .Run n => 1 + ((lookupTask table n).getD []).length
  | _ => 1

/-- Total weight of a queue: an upper bound on scheduler steps when every
reference expands to terminal actions. -/
def queueWeight (table : List (String × List Action)) (q : List Action) : Nat :=
  (q.map (actionWeight table)).sum

/-- Every task reference in the list resolves to terminal-only actions. -/
def goodActs (table : List (String × List Action)) (acts : List Action) : Bool :=
  acts.all (fun a =>
    match a with
    | .Run n =>
      match lookupTask table n with
      | some acts2 => acts2.all Action.isTerminal
      | none => false
    | _ => true)

/-- Spec side, for comparison: the scheduler as the spec describes it,
inserting an expanded action sequence at the FRONT of the queue. -/
def specSchedFront (table : List (String × List Action)) :
    Nat → List Action → List Event × Outcome
  | _, [] => ([], .ok)
  | 0, _ :: _ => ([], .fuelOut)
  | fuel + 1, a :: rest =>
    match a with
    | .Cargo cmd args =>
      let r := specSchedFront table fuel rest
      (.cargo cmd args :: r.1, r.2)
    | .Call f =>
      let r := specSchedFront table fuel rest
      (.call f :: r.1, r.2)
    | .Run name =>
      match lookupTask table name with
      | some acts => specSchedFront table fuel (acts ++ rest)
      | none => ([], .unknownTask name)

/-- Spec side, for comparison: the task table exactly as the table in
section 4.1 of the spec lists it, row by row. -/
def specTaskTable : List (String × List Action) :=
  [("before-pr",
    [.Cargo "update" [],
     .Run "lints",
     .Run "build-all",
     .Run "all-tests",
     .Run "all-checks"]),
   ("all-checks",
    [.Cargo "deny" ["check"],
     .Cargo "semver-checks" [],
     .Cargo "outdated" ["--exit-code", "1"]]),
   ("lints",
    [.Cargo "fmt" ["--check"],
     .Cargo "clippy" ["--workspace"]]),
   ("build-all",
    [.Cargo "build" ["--workspace"],
     .Cargo "build" ["--workspace", "--tests"],
     .Cargo "build" ["--workspace", "--release"]]),
   ("all-tests", [.Cargo "test" ["--workspace"]]),
   ("lcov-coverage", [.Call .lcov]),
   ("html-coverage", [.Call .html])]

/-- Bool check for duplicate requests: for every table entry, requesting
its name twice seeds the queue with its action sequence twice, the trace
is twice as long as for a single request, and every event of the single
run occurs exactly twice as often in the double run. -/
def c10Doubling : Bool :=
  ACTIONS.all (fun p =>
    (seedQueue [p.1, p.1] == p.2 ++ p.2) &&
    (let t1 := (run_xtask [p.1] 64).trace
     let t2 := (run_xtask [p.1, p.1] 64).trace
     (t2.length == 2 * t1.length) &&
       t1.all (fun e => t2.count e == 2 * t1.count e)))

/-- Whether an effect is a printed line. -/
def isPrintLn : CovEffect → Bool
  | .printLn _ => true
  | _ => false

/-- Whether an effect is a spawn of the grcov aggregation tool. -/
def isGrcovSpawn : CovEffect → Bool
  | .spawn prog _ _ => prog == "grcov"
  | _ => false

/-- The argument loop reports the first invalid argument and stops, for any
verbosity flag and queue accumulated so far. -/
theorem parseLoop_invalid (args : List String) :
    ∀ (v : Bool) (q : List Action), args.all isValidArg = false →
    ∃ bad, parseLoop args v q = .invalid bad ∧ isValidArg bad = false := by
  induction args with
  | nil =>
    intro v q h
    simp at h
  | cons a rest ih =>
    intro v q h
    rw [List.all_cons] at h
    by_cases hflag : (a == "--verbose" || a == "-v") = true
    · have hva : isValidArg a = true := by
        simp only [isValidArg, hflag, Bool.true_or]
      rw [hva, Bool.true_and] at h
      obtain ⟨bad, hb, hv⟩ := ih true q h
      exact ⟨bad, by simp only [parseLoop, hflag, if_true]; exact hb, hv⟩
    · have hflag2 : (a == "--verbose" || a == "-v") = false :=
        Bool.not_eq_true _ ▸ eq_false_of_ne_true hflag
      cases heq : lookupTask ACTIONS a with
      | some acts =>
        have hva : isValidArg a = true := by
          simp [isValidArg, heq]
        rw [hva, Bool.true_and] at h
        obtain ⟨bad, hb, hv⟩ := ih v (q ++ acts) h
        refine ⟨bad, ?_, hv⟩
        simp only [parseLoop, hflag2, Bool.false_eq_true, if_false, heq]
        exact hb
      | none =>
        refine ⟨a, ?_, ?_⟩
        · simp only [parseLoop, hflag2, Bool.false_eq_true, if_false, heq]
        · simp [isValidArg, hflag2, heq]

/-- The argument loop leaves the queue untouched when every argument is a
verbosity flag. -/
theorem parseLoop_flags (args : List String) :
    ∀ (v : Bool) (q : List Action),
    args.all (fun a => a == "--verbose" || a == "-v") = true →
    ∃ v2, parseLoop args v q = .parsed v2 q := by
  induction args with
  | nil => intro v q _; exact ⟨v, rfl⟩
  | cons a rest ih =>
    intro v q h
    rw [List.all_cons, Bool.and_eq_true] at h
    obtain ⟨v2, h2⟩ := ih true q h.2
    refine ⟨v2, ?_⟩
    simp only [parseLoop, h.1, if_true]
    exact h2

theorem queueWeight_cons (table : List (String × List Action)) (a : Action)
    (q : List Action) :
    queueWeight table (a :: q) = actionWeight table a + queueWeight table q := by
  simp [queueWeight]

theorem queueWeight_append (table : List (String × List Action))
    (q r : List Action) :
    queueWeight table (q ++ r) = queueWeight table q + queueWeight table r := by
  simp [queueWeight]

theorem actionWeight_pos (table : List (String × List Action)) (a : Action) :
    1 ≤ actionWeight table a := by
  cases a <;> simp [actionWeight]

/-- A list of terminal actions weighs exactly its length. -/
theorem queueWeight_terminal (table : List (String × List Action)) :
    ∀ (acts : List Action), acts.all Action.isTerminal = true →
    queueWeight table acts = acts.length := by
  intro acts
  induction acts with
  | nil => intro _; rfl
  | cons a rest ih =>
    intro h
    rw [List.all_cons, Bool.and_eq_true] at h
    rw [queueWeight_cons, ih h.2]
    cases a with
    | Run n => simp [Action.isTerminal] at h
    | Cargo c as => simp only [actionWeight, List.length_cons]; omega
    | Call f => simp only [actionWeight, List.length_cons]; omega

/-- A list of terminal actions is trivially good. -/
theorem goodActs_of_terminal (table : List (String × List Action)) :
    ∀ (acts : List Action), acts.all Action.isTerminal = true →
    goodActs table acts = true := by
  intro acts
  induction acts with
  | nil => intro _; rfl
  | cons a rest ih =>
    intro h
    rw [List.all_cons, Bool.and_eq_true] at h
    rw [goodActs, List.all_cons, Bool.and_eq_true]
    refine ⟨?_, ih h.2⟩
    cases a with
    | Run n => simp [Action.isTerminal] at h
    | Cargo c as => rfl
    | Call f => rfl

theorem goodActs_append (table : List (String × List Action))
    (q r : List Action) :
    goodActs table (q ++ r) = (goodActs table q && goodActs table r) := by
  simp [goodActs, List.all_append]

/-- With fuel at least the queue weight, a queue whose references all
expand to terminal actions drains completely. -/
theorem sched_ok (table : List (String × List Action)) :
    ∀ (fuel : Nat) (q : List Action), goodActs table q = true →
    queueWeight table q ≤ fuel → (sched table fuel q).2 = Outcome.ok := by
  intro fuel
  induction fuel with
  | zero =>
    intro q hg hw
    cases q with
    | nil => rfl
    | cons a rest =>
      exfalso
      have := actionWeight_pos table a
      rw [queueWeight_cons] at hw
      omega
  | succ fuel ih =>
    intro q hg hw
    cases q with
    | nil => rfl
    | cons a rest =>
      rw [goodActs, List.all_cons, Bool.and_eq_true] at hg
      rw [queueWeight_cons] at hw
      cases a with
      | Cargo c as =>
        simp only [sched]
        refine ih rest hg.2 ?_
        have : actionWeight table (Action.Cargo c as) = 1 := rfl
        omega
      | Call f =>
        simp only [sched]
        refine ih rest hg.2 ?_
        have : actionWeight table (Action.Call f) = 1 := rfl
        omega
      | Run n =>
        have hg1 : (match lookupTask table n with
            | some acts2 => acts2.all Action.isTerminal
            | none => false) = true := hg.1
        cases heq : lookupTask table n with
        | none => rw [heq] at hg1; simp at hg1
        | some acts2 =>
          rw [heq] at hg1
          simp only [sched, heq]
          refine ih (rest ++ acts2) ?_ ?_
          · have h2 : goodActs table rest = true := hg.2
            rw [goodActs_append, h2, goodActs_of_terminal table acts2 hg1]
            rfl
          · rw [queueWeight_append, queueWeight_terminal table acts2 hg1]
            have : actionWeight table (Action.Run n) = 1 + acts2.length := by
              simp [actionWeight, heq]
            omega

/-- Every action list in the table references only tasks whose own actions
are all terminal. -/
theorem actions_good : ACTIONS.all (fun p => goodActs ACTIONS p.2) = true := by
  decide

/-- A queue seeded from any requested names is good for the static table. -/
theorem seedQueue_good : ∀ (names : List String),
    goodActs ACTIONS (seedQueue names) = true := by
  intro names
  induction names with
  | nil => rfl
  | cons n rest ih =>
    rw [seedQueue, goodActs_append, ih, Bool.and_true]
    cases heq : lookupTask ACTIONS n with
    | none => rfl
    | some acts =>
      obtain ⟨p, hfind, hsnd⟩ := Option.map_eq_some'.mp heq
      have hmem : p ∈ ACTIONS := List.mem_of_find?_eq_some hfind
      have := List.all_eq_true.mp actions_good p hmem
      simpa [hsnd] using this

/-- Claim C1, counterexample: requesting before-pr and lints together, the
executed trace is NOT the depth-first, left-to-right flattening that the
front-of-queue scheduler described by the spec would produce, because the
implementation appends an expanded task at the back of the VecDeque. -/
theorem front_insertion_cex :
    (run_xtask ["before-pr", "lints"] 64).trace
      ≠ (specSchedFront ACTIONS 64 (seedQueue ["before-pr", "lints"])).1 := by
  decide

/-- Claim C1, amended: a popped task reference has its action sequence
appended at the BACK of the work queue, after all remaining queued
actions; nevertheless, for every single requested task of the static
table the observable trace of terminal actions still equals the
depth-first, left-to-right flattening of its action tree, because no
action follows a task reference inside any table entry and references
are not nested. -/
theorem back_insertion (table : List (String × List Action))
    (name : String) (acts rest : List Action) (fuel : Nat)
    (h : lookupTask table name = some acts) :
    sched table (fuel + 1) (Action.Run name :: rest)
      = sched table fuel (rest ++ acts)
    ∧ ACTIONS.all (fun p =>
        (run_xtask [p.1] 64).trace == (specSchedFront ACTIONS 64 p.2).1) = true := by
  constructor
  · simp [sched, h]
  · decide

/-- Witness for back_insertion at the lints task. -/
theorem back_insertion_witness :
    lookupTask ACTIONS "lints"
      = some [Action.Cargo "fmt" ["--check"], Action.Cargo "clippy" ["--workspace"]]
    ∧ (sched ACTIONS 8 (Action.Run "lints" :: [Action.Cargo "update" []])
        = sched ACTIONS 7 ([Action.Cargo "update" []]
            ++ [Action.Cargo "fmt" ["--check"], Action.Cargo "clippy" ["--workspace"]])
       ∧ ACTIONS.all (fun p =>
          (run_xtask [p.1] 64).trace == (specSchedFront ACTIONS 64 p.2).1) = true) :=
  ⟨by decide,
   back_insertion ACTIONS "lints"
     [Action.Cargo "fmt" ["--check"], Action.Cargo "clippy" ["--workspace"]]
     [Action.Cargo "update" []] 7 (by decide)⟩

/-- Claim C2, counterexample: with verbosity enabled, cargo_cmd hands
cargo the verbosity flag BEFORE the subcommand, so the argument list is
not subcommand first, then the verbosity flag, then the arguments. -/
theorem verbose_position_cex :
    cargoInvocationArgs "fmt" ["--check"] ⟨".", "target", true⟩
      = ["--verbose", "fmt", "--check"]
    ∧ ["--verbose", "fmt", "--check"] ≠ ["fmt", "--verbose", "--check"] := by
  decide

/-- Claim C2, amended: for every ToolInvocation executed with a
verbosity-enabled context, the spawned cargo argument list is the
verbosity flag first, then the subcommand, then the explicit
arguments, in that order. -/
theorem verbose_before_subcommand (command : String) (args : List String)
    (vars : Vars) (h : vars.verbose = true) :
    cargoInvocationArgs command args vars = "--verbose" :: command :: args
    ∧ cargo_cmd command args vars
      = [CovEffect.printLn ("Running cargo " ++ command ++
           args.foldl (fun s a => s ++ " " ++ a) ""),
         CovEffect.spawn "cargo" [] ("--verbose" :: command :: args)] := by
  constructor
  · simp [cargoInvocationArgs, Vars.verbose_arg, h]
  · simp [cargo_cmd, cargoInvocationArgs, Vars.verbose_arg, h]

/-- Witness for verbose_before_subcommand at cargo fmt --check. -/
theorem verbose_before_subcommand_witness :
    (Vars.mk "." "target" true).verbose = true
    ∧ (cargoInvocationArgs "fmt" ["--check"] ⟨".", "target", true⟩
        = ["--verbose", "fmt", "--check"]
       ∧ cargo_cmd "fmt" ["--check"] ⟨".", "target", true⟩
        = [CovEffect.printLn "Running cargo fmt --check",
           CovEffect.spawn "cargo" [] ["--verbose", "fmt", "--check"]]) :=
  ⟨rfl, verbose_before_subcommand "fmt" ["--check"] ⟨".", "target", true⟩ rfl⟩

/-- Claim C3: the static table holds exactly the seven tasks in order,
and each action sequence is exactly the expansion of section 4.1 of the
spec. -/
theorem task_table_matches_spec :
    ACTIONS = specTaskTable
    ∧ ACTIONS.map Prod.fst
      = ["before-pr", "all-checks", "lints", "build-all", "all-tests",
         "lcov-coverage", "html-coverage"]
    ∧ ACTIONS.length = 7 :=
  ⟨rfl, rfl, rfl⟩

/-- Claim C4: an argument list with at least one argument that is neither
a verbosity flag nor a known task name makes run_xtask exit with code 1
at that argument, with an empty trace, so no action runs and no
subprocess is ever spawned, whatever valid task names are also given. -/
theorem invalid_argument_aborts (args : List String) (fuel : Nat)
    (h : args.all isValidArg = false) :
    ∃ bad, run_xtask args fuel = XResult.invalidArg bad
      ∧ isValidArg bad = false
      ∧ (run_xtask args fuel).trace = []
      ∧ (run_xtask args fuel).exitCode = 1 := by
  obtain ⟨bad, hb, hv⟩ := parseLoop_invalid args false [] h
  refine ⟨bad, ?_, hv, ?_, ?_⟩ <;>
    simp [run_xtask, hb, XResult.trace, XResult.exitCode]

/-- Witness for invalid_argument_aborts: a valid task name followed by an
unknown argument and a verbosity flag. -/
theorem invalid_argument_aborts_witness :
    ["lints", "bogus", "-v"].all isValidArg = false
    ∧ ∃ bad, run_xtask ["lints", "bogus", "-v"] 0 = XResult.invalidArg bad
        ∧ isValidArg bad = false
        ∧ (run_xtask ["lints", "bogus", "-v"] 0).trace = []
        ∧ (run_xtask ["lints", "bogus", "-v"] 0).exitCode = 1 :=
  ⟨by decide, invalid_argument_aborts ["lints", "bogus", "-v"] 0 (by decide)⟩

/-- Claim C5: in any run of the scheduler loop in which the queue holds a
task reference absent from the table, with every earlier reference
resolving, every action dispatched before that reference is popped has
already executed, in order, and the loop aborts with UnknownTask at the
moment the reference is expanded, before any action that follows it in
queue order runs. -/
theorem nested_unknown_task_aborts (table : List (String × List Action))
    (name : String) (pre post : List Action) (fuel : Nat)
    (hfuel : pre.length < fuel)
    (hres : runsResolve table pre = true)
    (hname : lookupTask table name = none) :
    sched table fuel (pre ++ Action.Run name :: post)
      = (pre.filterMap dispatchEvent, Outcome.unknownTask name) := by
  induction pre generalizing post fuel with
  | nil =>
    cases fuel with
    | zero => omega
    | succ f => simp [sched, hname]
  | cons a pre ih =>
    have hres2 : runsResolve table pre = true := by
      rw [runsResolve, List.all_cons, Bool.and_eq_true] at hres
      exact hres.2
    cases fuel with
    | zero => simp at hfuel
    | succ f =>
      have hf : pre.length < f := by
        simp only [List.length_cons] at hfuel
        omega
      cases a with
      | Cargo c as =>
        rw [List.cons_append]
        simp only [sched]
        rw [ih post f hf hres2]
        simp [dispatchEvent]
      | Call fm =>
        rw [List.cons_append]
        simp only [sched]
        rw [ih post f hf hres2]
        simp [dispatchEvent]
      | Run m =>
        have hm : (lookupTask table m).isSome = true := by
          rw [runsResolve, List.all_cons, Bool.and_eq_true] at hres
          exact hres.1
        obtain ⟨acts, hacts⟩ := Option.isSome_iff_exists.mp hm
        rw [List.cons_append]
        simp only [sched, hacts]
        have hassoc : (pre ++ Action.Run name :: post) ++ acts
            = pre ++ Action.Run name :: (post ++ acts) := by
          simp
        rw [hassoc, ih (post ++ acts) f hf hres2]
        simp [dispatchEvent]

/-- Witness for nested_unknown_task_aborts: one cargo action, then a
reference to a missing task, then one more cargo action. -/
theorem nested_unknown_task_aborts_witness :
    [Action.Cargo "fmt" ["--check"]].length < 3
    ∧ runsResolve ACTIONS [Action.Cargo "fmt" ["--check"]] = true
    ∧ lookupTask ACTIONS "no-such-task" = none
    ∧ sched ACTIONS 3 ([Action.Cargo "fmt" ["--check"]]
        ++ Action.Run "no-such-task" :: [Action.Cargo "clippy" ["--workspace"]])
      = ([Event.cargo "fmt" ["--check"]], Outcome.unknownTask "no-such-task") :=
  ⟨by decide, by decide, by decide,
   nested_unknown_task_aborts ACTIONS "no-such-task"
     [Action.Cargo "fmt" ["--check"]] [Action.Cargo "clippy" ["--workspace"]] 3
     (by decide) (by decide) (by decide)⟩

/-- Claim C6: when every argument is a verbosity flag (or the list is
empty), run_xtask produces the missing-action message on the error
stream, listing all known task names in table order, comma separated,
exits with code 1, and executes no action. -/
theorem missing_action_message (args : List String) (fuel : Nat)
    (h : args.all (fun a => a == "--verbose" || a == "-v") = true) :
    run_xtask args fuel = XResult.missingAction missingActionMsg
    ∧ missingActionMsg
      = "Missing action, use one of before-pr, all-checks, lints, build-all, all-tests, lcov-coverage, html-coverage"
    ∧ (run_xtask args fuel).trace = []
    ∧ (run_xtask args fuel).exitCode = 1 := by
  obtain ⟨v2, hp⟩ := parseLoop_flags args false [] h
  refine ⟨?_, by decide, ?_, ?_⟩ <;>
    simp [run_xtask, hp, XResult.trace, XResult.exitCode]

/-- Witness for missing_action_message on a verbosity-only argument
list. -/
theorem missing_action_message_witness :
    ["--verbose", "-v"].all (fun a => a == "--verbose" || a == "-v") = true
    ∧ (run_xtask ["--verbose", "-v"] 0 = XResult.missingAction missingActionMsg
       ∧ missingActionMsg
        = "Missing action, use one of before-pr, all-checks, lints, build-all, all-tests, lcov-coverage, html-coverage"
       ∧ (run_xtask ["--verbose", "-v"] 0).trace = []
       ∧ (run_xtask ["--verbose", "-v"] 0).exitCode = 1) :=
  ⟨by decide, missing_action_message ["--verbose", "-v"] 0 (by decide)⟩

/-- Claim C7: a successful html-coverage leaf run performs, after the
optional pre-clean, exactly: the instrumented test run, a grcov
aggregation in html format, a grcov aggregation in lcov format, a
genhtml spawn over the generated lcov data, and three printed lines of
which exactly the last two are file URLs, pointing at the html and html2
report locations. -/
theorem html_coverage_run (vars : Vars) (fs : FsKind) :
    run_html_coverage vars fs
      = some ((if fs.is_dir
          then [CovEffect.removeDirAll (covTargetDir vars "html")] else [])
          ++ htmlTailEffects vars)
    ∧ (htmlTailEffects vars).filter isGrcovSpawn
      = [grcov (covTargetDir vars "html") "html" "debug",
         grcov (covTargetDir vars "html") "lcov" "debug"]
    ∧ (htmlTailEffects vars).filter isPrintLn
      = [CovEffect.printLn "Now open:",
         CovEffect.printLn ("file://" ++ pJoin vars.cwd (covTargetDir vars "html")
           ++ "/html/index.html"),
         CovEffect.printLn ("file://" ++ pJoin vars.cwd (covTargetDir vars "html")
           ++ "/html2/index.html")] :=
  ⟨rfl, rfl, rfl⟩

/-- Claim C8: for any finite request list of table task names, the
scheduler loop terminates: with fuel equal to the queue weight it drains
the whole queue and ends ok, because no table entry references a task
whose actions contain a further reference. -/
theorem scheduler_terminates (names : List String)
    (h : ∀ n ∈ names, (lookupTask ACTIONS n).isSome = true) :
    ∃ fuel, (sched ACTIONS fuel (seedQueue names)).2 = Outcome.ok :=
  ⟨queueWeight ACTIONS (seedQueue names),
   sched_ok ACTIONS _ _ (seedQueue_good names) le_rfl⟩

/-- Witness for scheduler_terminates on the request before-pr. -/
theorem scheduler_terminates_witness :
    (∀ n ∈ ["before-pr"], (lookupTask ACTIONS n).isSome = true)
    ∧ ∃ fuel, (sched ACTIONS fuel (seedQueue ["before-pr"])).2 = Outcome.ok :=
  ⟨by decide, scheduler_terminates ["before-pr"] (by decide)⟩

/-- Claim C9: the pre-cleaning step of both coverage operations removes
the output path only when it is an existing directory; over a
non-directory entry no removal happens and no error is raised, and the
effect sequence starts directly with the instrumented test run. -/
theorem coverage_preclean_only_directory (vars : Vars) (fs : FsKind)
    (h : fs.is_dir = false) :
    run_lcov_coverage vars fs = some (lcovTailEffects vars)
    ∧ run_html_coverage vars fs = some (htmlTailEffects vars)
    ∧ (∀ p, CovEffect.removeDirAll p ∉ lcovTailEffects vars)
    ∧ (∀ p, CovEffect.removeDirAll p ∉ htmlTailEffects vars)
    ∧ (lcovTailEffects vars).head? = some (covTestSpawn vars "lcov")
    ∧ (htmlTailEffects vars).head? = some (covTestSpawn vars "html") := by
  refine ⟨?_, ?_, ?_, ?_, rfl, rfl⟩
  · simp [run_lcov_coverage, code_coverage, h]
  · simp [run_html_coverage, code_coverage, h]
  · intro p
    simp [lcovTailEffects, covTestSpawn, grcov]
  · intro p
    simp [htmlTailEffects, covTestSpawn, grcov]

/-- Witness for coverage_preclean_only_directory with a regular file in
the way. -/
theorem coverage_preclean_only_directory_witness :
    FsKind.file.is_dir = false
    ∧ (run_lcov_coverage ⟨"/c", "/t", false⟩ FsKind.file
        = some (lcovTailEffects ⟨"/c", "/t", false⟩)
       ∧ run_html_coverage ⟨"/c", "/t", false⟩ FsKind.file
        = some (htmlTailEffects ⟨"/c", "/t", false⟩)
       ∧ (∀ p, CovEffect.removeDirAll p ∉ lcovTailEffects ⟨"/c", "/t", false⟩)
       ∧ (∀ p, CovEffect.removeDirAll p ∉ htmlTailEffects ⟨"/c", "/t", false⟩)
       ∧ (lcovTailEffects ⟨"/c", "/t", false⟩).head?
        = some (covTestSpawn ⟨"/c", "/t", false⟩ "lcov")
       ∧ (htmlTailEffects ⟨"/c", "/t", false⟩).head?
        = some (covTestSpawn ⟨"/c", "/t", false⟩ "html")) :=
  ⟨rfl, coverage_preclean_only_directory ⟨"/c", "/t", false⟩ FsKind.file rfl⟩

/-- Claim C10: for every table entry, requesting its name twice seeds the
queue with its action sequence twice over, the resulting trace is twice
as long as for a single request, and every dispatched event of the
single run occurs exactly twice as often in the double run: occurrences
are not deduplicated. -/
theorem duplicate_request_runs_twice : c10Doubling = true := by
  decide

end LogixXtask
